import Mathlib

/-!
Verification of the Channel Log Archive Engine against its specification.

The engine's modules `reader.rs` and `state.rs` (plus the access check in
`route.rs`) are shallowly embedded below.  File contents are given to the
embedded functions as already-decoded text (the source decodes every file
to UTF-8 and iterates over its lines), filesystem facts (presence of a
`PUBLIC` marker) as booleans, and the external htpasswd verifier as an
abstract check function.  Regular-expression matching from the source
(`regex` crate, pattern applied unanchored over the line) is embedded as an
explicit leftmost scan; the character classes are modelled over the ASCII
range used by the transcript format.
-/

set_option maxRecDepth 4096

deriving instance DecidableEq for Except

namespace Irclog

/-- A calendar date, standing for chrono `Date<Utc>`. -/
structure Date where
  year : Int
  month : Nat
  day : Nat
deriving DecidableEq, Repr

/-- A date-time with seconds, standing for chrono `DateTime<Utc>` as built by
`log_date.and_time(time)`. -/
structure Timestamp where
  date : Date
  hour : Nat
  minute : Nat
  second : Nat
deriving DecidableEq, Repr

/-- `LogLineContent` from `reader.rs`. -/
inductive LogLineContent where
  | Message (nickname : String) (text : String)
  | Status (text : String)
deriving DecidableEq, Repr

/-- `LogLine` from `reader.rs`. -/
structure LogLine where
  date : Timestamp
  content : LogLineContent
deriving DecidableEq, Repr

/-- Errors of `parse_line`: the explicit `anyhow::bail!("Parse line error: {}", line)`
carrying the offending line, and the chrono time-parse error propagated by `?`. -/
inductive ParseLineError where
  | patternMismatch (line : String)
  | timeParseError
deriving DecidableEq, Repr

/-- Whether `pat` is a prefix of `s` (boolean, character by character). -/
def isPrefixList : List Char → List Char → Bool
  | [], _ => true
  | _ :: _, [] => false
  | p :: ps, c :: cs => p == c && isPrefixList ps cs

/-- Rust `str::contains` for a (nonempty) needle: `pat` occurs as a contiguous
substring of `s`. -/
def containsSub : List Char → List Char → Bool
  | [], pat => pat.isEmpty
  | c :: cs, pat => isPrefixList pat (c :: cs) || containsSub cs pat

/-- Rust `line.contains(pat)` on decoded strings. -/
def strContains (s pat : String) : Bool :=
  containsSub s.data pat.data

/-- The `\S` class of the pattern: not whitespace. -/
def isNonSpace (c : Char) : Bool := !c.isWhitespace

/-- The `.` class of the pattern: any character but a newline. -/
def notNl (c : Char) : Bool := !(c == '\n')

/-- Matching `(\S+) ` at the head of `cs`: a nonempty maximal run of
non-whitespace characters followed by a literal space.  Returns the run and
what follows the space. -/
def takeTokenSpace (cs : List Char) : Option (List Char × List Char) :=
  match cs.dropWhile isNonSpace with
  | c :: rest2 =>
    if c == ' ' then
      let tok := cs.takeWhile isNonSpace
      if tok == [] then none else some (tok, rest2)
    else none
  | [] => none

/-- One attempt of the pattern `\[(\d\d:\d\d)\] (\S+) (.*)` at a fixed start
position: the bracketed two-digit time block, a space, a token, a space, and
the rest of the line (the `.*` capture stops at a newline).  Returns the three
captured groups. -/
def matchAt (cs : List Char) : Option (List Char × List Char × List Char) :=
  match cs with
  | c0 :: c1 :: c2 :: c3 :: c4 :: c5 :: c6 :: c7 :: rest =>
    if c0 == '[' && c1.isDigit && c2.isDigit && c3 == ':' && c4.isDigit
        && c5.isDigit && c6 == ']' && c7 == ' ' then
      match takeTokenSpace rest with
      | some (tok, rest2) => some ([c1, c2, c3, c4, c5], tok, rest2.takeWhile notNl)
      | none => none
    else none
  | _ => none

/-- `Regex::captures` over the whole line: the pattern is unanchored, so the
scan tries every start position left to right. -/
def findMatch : List Char → Option (List Char × List Char × List Char)
  | [] => none
  | c :: cs =>
    match matchAt (c :: cs) with
    | some r => some r
    | none => findMatch cs

/-- Numeric value of two decimal digit characters. -/
def digitsToVal (c1 c2 : Char) : Nat :=
  (c1.toNat - 48) * 10 + (c2.toNat - 48)

/-- Models the external chrono `NaiveTime::parse_from_str(time_str, "%H:%M")`
on the five-character capture: two digits, a colon, two digits, with the hour
at most 23 and the minute at most 59. -/
def parse_time (cs : List Char) : Option (Nat × Nat) :=
  match cs with
  | [c1, c2, c3, c4, c5] =>
    if c1.isDigit && c2.isDigit && c3 == ':' && c4.isDigit && c5.isDigit then
      let h := digitsToVal c1 c2
      let m := digitsToVal c4 c5
      if h ≤ 23 ∧ m ≤ 59 then some (h, m) else none
    else none
  | _ => none

/-- `trim_start_matches('<')` then `trim_end_matches('>')` from `parse_line`:
all leading `<` and all trailing `>` are removed. -/
def stripAngles (cs : List Char) : List Char :=
  ((cs.dropWhile (fun c => c == '<')).reverse.dropWhile (fun c => c == '>')).reverse

/-- `parse_line` from `reader.rs`: apply the pattern, parse the time capture,
strip angle brackets from the token, and classify the line as `Status` when
the stripped token is `***`, otherwise as `Message`. -/
def parse_line (line : String) (log_date : Date) : Except ParseLineError LogLine :=
  match findMatch line.data with
  | none => .error (.patternMismatch line)
  | some (timeStr, tokenStr, textStr) =>
    match parse_time timeStr with
    | none => .error .timeParseError
    | some (h, m) =>
      let nickname := stripAngles tokenStr
      if nickname == "***".data then
        .ok ⟨⟨log_date, h, m, 0⟩, .Status ⟨textStr⟩⟩
      else
        .ok ⟨⟨log_date, h, m, 0⟩, .Message ⟨nickname⟩ ⟨textStr⟩⟩

/-- `count_message_lines` from `reader.rs`: iterate over the decoded lines of
the file and count every line that does not contain `"] *** "`.  The date
argument is received (as `_log_date` in the source) and ignored. -/
def count_message_lines (lines : List String) (_log_date : Date) : Nat :=
  lines.foldl (fun count line => if !(strContains line "] *** ") then count + 1 else count) 0

/-- Spec-side classifier for the refinement claim about the counting pass:
whether the full line parser turns this line into a `Message` event. -/
def is_message_event (line : String) (d : Date) : Bool :=
  match parse_line line d with
  | .ok ll =>
    match ll.content with
    | .Message _ _ => true
    | .Status _ => false
  | .error _ => false

/-- Spec-side count for the refinement claim: the number of lines of the file
that the full parser classifies as `Message`. -/
def parsed_message_count (lines : List String) (d : Date) : Nat :=
  (lines.filter (fun l => is_message_event l d)).length

/-- Rust `s.split_once(sep)` for a single-character separator: the portions
before and after the first occurrence, or `none` when the separator is
absent. -/
def splitOnceChar (sep : Char) : List Char → Option (List Char × List Char)
  | [] => none
  | c :: cs =>
    if c == sep then some ([], cs)
    else
      match splitOnceChar sep cs with
      | some (a, b) => some (c :: a, b)
      | none => none

/-- Rust `s.split(sep)` for a single-character separator: the list of pieces,
one more piece than separators, empty pieces kept. -/
def splitChar (sep : Char) : List Char → List (List Char)
  | [] => [[]]
  | c :: cs =>
    if c == sep then [] :: splitChar sep cs
    else
      match splitChar sep cs with
      | [] => [[c]]
      | l :: ls => (c :: l) :: ls

/-- One iteration of the loop of `is_channel_in_password_file`: a line whose
first character is `#` is skipped as a comment; otherwise the portion before
the first `:` is compared with the name (a line without `:` never matches). -/
def cred_line_matches (name line : List Char) : Bool :=
  if line.head? == some '#' then false
  else
    match splitOnceChar ':' line with
    | some (candidate_name, _) => name == candidate_name
    | none => false

/-- `AppState::is_channel_in_password_file` from `state.rs`, with the on-disk
content of the Apache password file passed in as already-read text: split the
content on newlines and scan for a non-comment record whose key equals the
channel name. -/
def is_channel_in_password_file (content : String) (name : String) : Bool :=
  (splitChar '\n' content.data).any (fun line => cred_line_matches name.data line)

/-- The filesystem facts `AppState` consults for the access gate: whether a
channel directory holds a `PUBLIC` marker file, and the text of the Apache
password file. -/
structure AppStateFs where
  publicMarkers : String → Bool
  passwordFileContent : String

/-- `AppState::is_channel_marked_public` from `state.rs`: the `PUBLIC` marker
file exists in the channel's directory. -/
def is_channel_marked_public (st : AppStateFs) (name : String) : Bool :=
  st.publicMarkers name

/-- `AppState::is_channel_private` from `state.rs`. -/
def is_channel_private (st : AppStateFs) (name : String) : Bool :=
  !is_channel_marked_public st name &&
    is_channel_in_password_file st.passwordFileContent name

/-- The outcome of reading the `Authorization` header in `user_has_access`
(`route.rs`): no header, a header `Credentials::from_header` rejects, or a
parsed identity/secret pair. -/
inductive AuthHeaderParse where
  | absent
  | malformed
  | credentials (user_id : String) (password : String)

/-- `user_has_access` from `route.rs`, with `AppState::is_password_ok`
abstracted as `password_check` (the source delegates it to the external
`htpasswd_verify` crate over the password file's contents): on a private
channel the presented identity must equal the channel name and the password
must verify; a missing or unparseable header denies access; a public channel
is always accessible. -/
def user_has_access (is_priv : Bool) (auth : AuthHeaderParse)
    (channel : String) (password_check : String → String → Bool) : Bool :=
  if is_priv then
    match auth with
    | .credentials user_id password => channel == user_id && password_check channel password
    | .absent => false
    | .malformed => false
  else
    true

/-- Outcomes of `parse_date_slug` from `state.rs`.  `panicked` stands for the
`.unwrap()` panic on `split_once(",")` returning `None`: the source does not
return an error there, it aborts. -/
inductive DateSlugError where
  | panicked
  | parseError
deriving DecidableEq, Repr

/-- Whether a year is a leap year of the proleptic Gregorian calendar. -/
def isLeapYear (y : Int) : Bool :=
  y % 4 == 0 && (y % 100 != 0 || y % 400 == 0)

/-- Days of a month of the proleptic Gregorian calendar. -/
def daysInMonth (y : Int) (m : Nat) : Nat :=
  if m == 2 then (if isLeapYear y then 29 else 28)
  else if m == 4 || m == 6 || m == 9 || m == 11 then 30
  else 31

/-- Numeric value of a list of decimal digit characters. -/
def digitsVal (cs : List Char) : Nat :=
  cs.foldl (fun a c => a * 10 + (c.toNat - 48)) 0

/-- Models the external chrono `NaiveDate::parse_from_str(s, "%Y-%m-%d")`:
three dash-separated all-digit fields giving a valid calendar date. -/
def parse_ymd (s : List Char) : Option Date :=
  match splitChar '-' s with
  | [ys, ms, ds] =>
    if !ys.isEmpty && ys.all Char.isDigit && !ms.isEmpty && ms.all Char.isDigit
        && !ds.isEmpty && ds.all Char.isDigit then
      let y : Int := Int.ofNat (digitsVal ys)
      let m := digitsVal ms
      let d := digitsVal ds
      if 1 ≤ m ∧ m ≤ 12 ∧ 1 ≤ d ∧ d ≤ daysInMonth y m then some ⟨y, m, d⟩ else none
    else none
  | _ => none

/-- `parse_date_slug` from `state.rs`: `split_once(",")` then `.unwrap()` —
a slug without a comma panics (`DateSlugError.panicked`) rather than
returning an error — and the portion before the first comma is handed to the
chrono date parser, whose failure propagates through `?` as
`DateSlugError.parseError`. -/
def parse_date_slug (date_slug : String) : Except DateSlugError Date :=
  match splitOnceChar ',' date_slug.data with
  | none => .error .panicked
  | some (date_string, _) =>
    match parse_ymd date_string with
    | none => .error .parseError
    | some d => .ok d

/-- `SearchResultEntry` from `state.rs`. -/
structure SearchResultEntry where
  date_slug : String
  line_number : Nat
  raw_line : String
deriving DecidableEq, Repr

/-- Errors of the output loop of `search_channel`: the `?` on
`parts[1].trim().parse::<u64>()` when the middle field of a three-field line
is not an unsigned integer. -/
inductive SearchLineError where
  | intParseError
deriving DecidableEq, Repr

/-- Rust `line.splitn(3, ':')`: at most three pieces, the last piece keeping
every remaining `:`. -/
def splitn3Colon (s : List Char) : List (List Char) :=
  match splitOnceChar ':' s with
  | none => [s]
  | some (a, rest) =>
    match splitOnceChar ':' rest with
    | none => [a, rest]
    | some (b, rest2) => [a, b, rest2]

/-- Rust `str::trim`: remove leading and trailing whitespace. -/
def trimChars (cs : List Char) : List Char :=
  ((cs.dropWhile Char.isWhitespace).reverse.dropWhile Char.isWhitespace).reverse

/-- Rust `str::parse::<u64>`: an optional leading `+`, then one or more
decimal digits, the value fitting in 64 bits. -/
def parse_u64 (s : List Char) : Option Nat :=
  let digits := match s with | '+' :: rest => rest | _ => s
  if !digits.isEmpty && digits.all Char.isDigit then
    let v := digitsVal digits
    if v < 2 ^ 64 then some v else none
  else none

/-- Rust `Path::file_name`: the final component of the path, ignoring
trailing slashes; `none` for an empty path or one ending in `.` or `..`. -/
def path_file_name (s : List Char) : Option (List Char) :=
  let trimmed := (s.reverse.dropWhile (fun c => c == '/')).reverse
  let name := (trimmed.reverse.takeWhile (fun c => !(c == '/'))).reverse
  if name == [] || name == ['.'] || name == ['.', '.'] then none else some name

/-- Rust `Path::file_stem` composed with `unwrap_or_default`: the file name
with its final-dot extension removed; a name whose only dot is leading keeps
it; a missing file name becomes the empty string. -/
def file_stem_of_path (s : List Char) : List Char :=
  match path_file_name s with
  | none => []
  | some name =>
    match splitOnceChar '.' name.reverse with
    | none => name
    | some (_, stem_rev) => if stem_rev == [] then name else stem_rev.reverse

/-- The body of the three-field branch of the output loop of
`search_channel`: parse the middle field as the line number (its failure
aborts the whole search through `?`), take the file stem of the first field
as the date slug, keep the third field verbatim; a line that does not split
into three fields is skipped. -/
def process_output_line (line : String) : Except SearchLineError (Option SearchResultEntry) :=
  match splitn3Colon line.data with
  | [file_path, num_field, raw_line] =>
    match parse_u64 (trimChars num_field) with
    | none => .error .intParseError
    | some n => .ok (some ⟨⟨file_stem_of_path file_path⟩, n, ⟨raw_line⟩⟩)
  | _ => .ok none

/-- The sentinel entry `search_channel` appends on reaching the result
ceiling. -/
def max_search_results_exceeded : SearchResultEntry :=
  ⟨"", 0, "(max search results exceed)"⟩

/-- The output loop of `search_channel` over the decoded stdout lines of the
external tool, carrying the `enumerate` counter and the accumulated results:
at counter value 10000 the sentinel is appended and the loop breaks without
reading further lines. -/
def search_results_go : List String → Nat → List SearchResultEntry →
    Except SearchLineError (List SearchResultEntry)
  | [], _, acc => .ok acc.reverse
  | line :: rest, count, acc =>
    if count == 10000 then .ok (acc.reverse ++ [max_search_results_exceeded])
    else
      match process_output_line line with
      | .error e => .error e
      | .ok none => search_results_go rest (count + 1) acc
      | .ok (some entry) => search_results_go rest (count + 1) (entry :: acc)

/-- The result-assembly phase of `AppState::search_channel` from `state.rs`,
given the decoded stdout lines of the external search process. -/
def search_results (outputLines : List String) : Except SearchLineError (List SearchResultEntry) :=
  search_results_go outputLines 0 []

/-- Spec-side well-formedness of one line of search-tool output: it splits
into exactly three `:`-separated fields and the middle field is an unsigned
integer. -/
def wf_output_line (line : String) : Bool :=
  match splitn3Colon line.data with
  | [_, num_field, _] => (parse_u64 (trimChars num_field)).isSome
  | _ => false

/-- Spec-side hit built from one well-formed line of search-tool output. -/
def mk_hit (line : String) : SearchResultEntry :=
  match splitn3Colon line.data with
  | [file_path, num_field, raw_line] =>
    ⟨⟨file_stem_of_path file_path⟩, (parse_u64 (trimChars num_field)).getD 0, ⟨raw_line⟩⟩
  | _ => ⟨"", 0, ""⟩

/-- Spec-side restriction under which the counting pass and the full parser
agree on one line: the line has the grammar shape with a valid time, a status
token is written bare (`***`, not a wrapped form such as `<***>` that also
strips to `***`), and the text after the time block contains no stray
occurrence of the status marker `"] *** "`. -/
def GoodLine (l : String) : Prop :=
  ∃ h1 h2 m1 m2 : Char, ∃ tok rest : List Char,
    l.data = '[' :: h1 :: h2 :: ':' :: m1 :: m2 :: ']' :: ' ' :: (tok ++ ' ' :: rest) ∧
    (h1.isDigit && h2.isDigit && m1.isDigit && m2.isDigit) = true ∧
    digitsToVal h1 h2 ≤ 23 ∧ digitsToVal m1 m2 ≤ 59 ∧
    tok ≠ [] ∧ (∀ c ∈ tok, c.isWhitespace = false) ∧
    (stripAngles tok = "***".data → tok = "***".data) ∧
    containsSub (tok ++ ' ' :: rest) "] *** ".data = false ∧
    '\n' ∉ rest

theorem string_mk_data (l : List Char) : (⟨l⟩ : String).data = l := rfl

theorem takeWhile_all_append (p : Char → Bool) (l1 : List Char) (c : Char) (l2 : List Char)
    (h1 : ∀ x ∈ l1, p x = true) (hc : p c = false) :
    (l1 ++ c :: l2).takeWhile p = l1 ∧ (l1 ++ c :: l2).dropWhile p = c :: l2 := by
  induction l1 with
  | nil => simp [List.takeWhile_cons, List.dropWhile_cons, hc]
  | cons a l ih =>
    have ha : p a = true := h1 a (by simp)
    have hrec := ih (fun x hx => h1 x (by simp [hx]))
    simp [List.takeWhile_cons, List.dropWhile_cons, ha, hrec.1, hrec.2]

theorem takeWhile_notNl_eq_self (l : List Char) (h : '\n' ∉ l) : l.takeWhile notNl = l := by
  induction l with
  | nil => rfl
  | cons a l ih =>
    simp only [List.mem_cons, not_or] at h
    have ha : notNl a = true := by
      simp only [notNl, Bool.not_eq_true']
      exact beq_eq_false_iff_ne.mpr (fun hEq => h.1 (hEq ▸ rfl))
    simp [List.takeWhile_cons, ha, ih h.2]

theorem beq_eq_false_of_isDigit (a c : Char) (ha : a.isDigit = false) (hc : c.isDigit = true) :
    (a == c) = false := by
  cases hb : a == c with
  | false => rfl
  | true =>
    have hac : a = c := eq_of_beq hb
    rw [hac, hc] at ha
    exact absurd ha (by simp)

theorem matchAt_shape (h1 h2 m1 m2 : Char) (tok rest : List Char)
    (hd : (h1.isDigit && h2.isDigit && m1.isDigit && m2.isDigit) = true)
    (htne : tok ≠ []) (htns : ∀ c ∈ tok, c.isWhitespace = false)
    (hnl : '\n' ∉ rest) :
    matchAt ('[' :: h1 :: h2 :: ':' :: m1 :: m2 :: ']' :: ' ' :: (tok ++ ' ' :: rest)) =
      some ([h1, h2, ':', m1, m2], tok, rest) := by
  have hd' := hd
  simp only [Bool.and_eq_true] at hd'
  obtain ⟨⟨⟨hd1, hd2⟩, hd3⟩, hd4⟩ := hd'
  have htws : ∀ x ∈ tok, isNonSpace x = true := fun x hx => by
    simp [isNonSpace, htns x hx]
  have hsp : isNonSpace ' ' = false := by decide
  have htd := takeWhile_all_append isNonSpace tok ' ' rest htws hsp
  have htokb : (tok == []) = false := by
    cases tok with
    | nil => exact absurd rfl htne
    | cons a l => rfl
  simp only [matchAt, takeTokenSpace, htd.1, htd.2, hd1, hd2, hd3, hd4, htokb]
  simp [takeWhile_notNl_eq_self rest hnl]

theorem findMatch_cons_eq (c : Char) (cs : List Char) (r : List Char × List Char × List Char)
    (h : matchAt (c :: cs) = some r) : findMatch (c :: cs) = some r := by
  simp [findMatch, h]

theorem parse_line_shape (h1 h2 m1 m2 : Char) (tok rest : List Char) (d : Date)
    (hd : (h1.isDigit && h2.isDigit && m1.isDigit && m2.isDigit) = true)
    (hh : digitsToVal h1 h2 ≤ 23) (hm : digitsToVal m1 m2 ≤ 59)
    (htne : tok ≠ []) (htns : ∀ c ∈ tok, c.isWhitespace = false)
    (hnl : '\n' ∉ rest) :
    parse_line ⟨'[' :: h1 :: h2 :: ':' :: m1 :: m2 :: ']' :: ' ' :: (tok ++ ' ' :: rest)⟩ d =
      .ok ⟨⟨d, digitsToVal h1 h2, digitsToVal m1 m2, 0⟩,
        if stripAngles tok = "***".data then .Status ⟨rest⟩
        else .Message ⟨stripAngles tok⟩ ⟨rest⟩⟩ := by
  have hd' := hd
  simp only [Bool.and_eq_true] at hd'
  obtain ⟨⟨⟨hd1, hd2⟩, hd3⟩, hd4⟩ := hd'
  have hfind := findMatch_cons_eq _ _ _ (matchAt_shape h1 h2 m1 m2 tok rest hd htne htns hnl)
  simp only [parse_line, string_mk_data, hfind, parse_time, hd1, hd2, hd3, hd4]
  simp only [beq_self_eq_true, Bool.and_self, Bool.true_and, if_pos (And.intro hh hm)]
  rw [apply_ite (fun cnt =>
    (Except.ok ⟨⟨d, digitsToVal h1 h2, digitsToVal m1 m2, 0⟩, cnt⟩ :
      Except ParseLineError LogLine))]
  exact if_congr beq_iff_eq rfl rfl

/-- C1: `is_channel_private` returns true exactly when no `PUBLIC` marker
file exists in the channel's directory and the password file contains the
channel name as a key; in particular, whenever the marker exists the channel
is not private, regardless of the password file's contents. -/
theorem c1_is_private_iff (st : AppStateFs) (name : String) :
    (is_channel_private st name = true ↔
      is_channel_marked_public st name = false ∧
        is_channel_in_password_file st.passwordFileContent name = true) ∧
    (is_channel_marked_public st name = true → is_channel_private st name = false) := by
  constructor
  · simp [is_channel_private, Bool.and_eq_true, Bool.not_eq_true']
  · intro h
    simp [is_channel_private, h]

theorem c1_witness :
    is_channel_private ⟨fun _ => true, "#foo:hash"⟩ "#foo" = false :=
  (c1_is_private_iff ⟨fun _ => true, "#foo:hash"⟩ "#foo").2 rfl

/-- C2: on a private channel the access check succeeds exactly when the
presented identity equals the channel name (case-sensitively) and the
password verifier accepts the secret for that channel; a differing identity
is rejected even with a correct secret, and absent or unparseable
credentials yield false rather than an error. -/
theorem c2_check_credentials (channel user_id password : String)
    (password_check : String → String → Bool) :
    (user_has_access true (.credentials user_id password) channel password_check = true ↔
      user_id = channel ∧ password_check channel password = true) ∧
    (user_id ≠ channel →
      user_has_access true (.credentials user_id password) channel password_check = false) ∧
    user_has_access true .absent channel password_check = false ∧
    user_has_access true .malformed channel password_check = false := by
  refine ⟨?_, ?_, rfl, rfl⟩
  · have hdef : user_has_access true (.credentials user_id password) channel password_check =
        (channel == user_id && password_check channel password) := rfl
    rw [hdef, Bool.and_eq_true, beq_iff_eq]
    exact and_congr_left (fun _ => eq_comm)
  · intro h
    have hb : (channel == user_id) = false := beq_eq_false_iff_ne.mpr (Ne.symm h)
    simp [user_has_access, hb]

theorem c2_witness :
    user_has_access true (.credentials "#bar" "rightpass") "#foo" (fun _ _ => true) = false :=
  (c2_check_credentials "#foo" "#bar" "rightpass" (fun _ _ => true)).2.1 (by decide)

/-- C5 (amended): every line in which the pattern
`\[(\d\d:\d\d)\] (\S+) (.*)` matches at no start position fails with the
`ParseError` carrying the offending line and produces no event.  The pattern
is unanchored, so beginning with the `[HH:MM]` block is not required: a line
whose first match starts later is parsed from there (see the
counterexample). -/
theorem c5_unmatched_line_fails (line : String) (d : Date)
    (h : findMatch line.data = none) :
    parse_line line d = .error (.patternMismatch line) := by
  simp [parse_line, h]

theorem c5_witness :
    findMatch "hello world".data = none ∧
    parse_line "hello world" ⟨2024, 1, 2⟩ = .error (.patternMismatch "hello world") :=
  ⟨by decide, c5_unmatched_line_fails "hello world" ⟨2024, 1, 2⟩ (by decide)⟩

/-- C5 counterexample: a line that does not begin with a `[HH:MM]` block (its
first character is not even `[`) is nevertheless parsed successfully, because
the source's regular expression is applied unanchored. -/
theorem c5_counterexample :
    isPrefixList ['['] "x[12:34] <a> hi".data = false ∧
    parse_line "x[12:34] <a> hi" ⟨2024, 1, 2⟩ =
      .ok ⟨⟨⟨2024, 1, 2⟩, 12, 34, 0⟩, .Message "a" "hi"⟩ := by decide

/-- C6: a credential-file line starting with `#` never makes the membership
query report a name present — any positive answer comes from a non-comment
line whose key equals the name — and in particular the file consisting only
of `"# #foo:hash"` does not count `#foo` as present. -/
theorem c6_comments_never_match (content name : String) :
    (is_channel_in_password_file content name = true →
      ∃ line, line ∈ splitChar '\n' content.data ∧ line.head? ≠ some '#' ∧
        cred_line_matches name.data line = true) ∧
    is_channel_in_password_file "# #foo:hash" "#foo" = false := by
  constructor
  · intro h
    simp only [is_channel_in_password_file, List.any_eq_true] at h
    obtain ⟨line, hmem, hmatch⟩ := h
    refine ⟨line, hmem, ?_, hmatch⟩
    intro hhead
    rw [cred_line_matches, hhead] at hmatch
    simp at hmatch
  · decide

theorem c6_witness :
    ∃ line, line ∈ splitChar '\n' "a:x".data ∧ line.head? ≠ some '#' ∧
      cred_line_matches "a".data line = true :=
  (c6_comments_never_match "a:x" "a").1 (by decide)

/-- C9: date-slug parsing takes everything before the first comma as the date
portion (`"2024-01-02,Sat"` parses to 2024-01-02), but a slug lacking a comma
does not return a `ParseError` — the source calls `.unwrap()` on
`split_once(",")` and panics, modelled here by `DateSlugError.panicked`. -/
theorem c9_missing_comma_panics :
    parse_date_slug "2024-01-02" = .error .panicked ∧
    parse_date_slug "2024-01-02,Sat" = .ok ⟨2024, 1, 2⟩ := by decide

/-- C10: the counting pass ignores its date argument — its result depends
only on the file's lines. -/
theorem c10_count_ignores_date (lines : List String) (d1 d2 : Date) :
    count_message_lines lines d1 = count_message_lines lines d2 := rfl

/-- C4 (amended): for every line of the shape `[HH:MM] TOKEN REST` with a
valid time and every supplied date, the parser returns an event timestamped
at the supplied date with the parsed hour and minute and zero seconds; the
event is `Status{REST}` exactly when TOKEN stripped of its leading `<` and
trailing `>` characters equals `***` (so the bare `***` and wrapped forms
such as `<***>` alike), and `Message{stripped TOKEN, REST}` otherwise. -/
theorem c4_parse_line_grammar (h1 h2 m1 m2 : Char) (tok rest : List Char) (d : Date)
    (hd : (h1.isDigit && h2.isDigit && m1.isDigit && m2.isDigit) = true)
    (hh : digitsToVal h1 h2 ≤ 23) (hm : digitsToVal m1 m2 ≤ 59)
    (htne : tok ≠ []) (htns : ∀ c ∈ tok, c.isWhitespace = false)
    (hnl : '\n' ∉ rest) :
    parse_line ⟨'[' :: h1 :: h2 :: ':' :: m1 :: m2 :: ']' :: ' ' :: (tok ++ ' ' :: rest)⟩ d =
      .ok ⟨⟨d, digitsToVal h1 h2, digitsToVal m1 m2, 0⟩,
        if stripAngles tok = "***".data then .Status ⟨rest⟩
        else .Message ⟨stripAngles tok⟩ ⟨rest⟩⟩ :=
  parse_line_shape h1 h2 m1 m2 tok rest d hd hh hm htne htns hnl

theorem c4_witness :
    ("<alice>".data ≠ []) ∧
    parse_line "[14:32] <alice> hello" ⟨2024, 1, 2⟩ =
      .ok ⟨⟨⟨2024, 1, 2⟩, 14, 32, 0⟩, .Message "alice" "hello"⟩ :=
  ⟨by decide,
    c4_parse_line_grammar '1' '4' '3' '2' "<alice>".data "hello".data ⟨2024, 1, 2⟩
      (by decide) (by decide) (by decide) (by decide) (by decide) (by decide)⟩

/-- C4 counterexample: for the TOKEN `<***>`, which differs from the literal
`***`, the claim predicts a `Message` with the wrapping brackets stripped,
but the parser strips the brackets before the status test and yields a
`Status` event. -/
theorem c4_counterexample :
    parse_line "[14:32] <***> hello" ⟨2024, 1, 2⟩ ≠
      .ok ⟨⟨⟨2024, 1, 2⟩, 14, 32, 0⟩, .Message "***" "hello"⟩ ∧
    parse_line "[14:32] <***> hello" ⟨2024, 1, 2⟩ =
      .ok ⟨⟨⟨2024, 1, 2⟩, 14, 32, 0⟩, .Status "hello"⟩ := by decide

theorem isPrefixList_star_token (tok rest : List Char)
    (htns : ∀ c ∈ tok, c.isWhitespace = false) :
    (isPrefixList ['*', '*', '*', ' '] (tok ++ ' ' :: rest) = true) ↔ tok = ['*', '*', '*'] := by
  rcases tok with _ | ⟨a, _ | ⟨b, _ | ⟨c, _ | ⟨e, t⟩⟩⟩⟩
  · simp [isPrefixList]
  · simp [isPrefixList]
  · simp [isPrefixList]
  · constructor
    · intro h
      simp only [List.cons_append, List.nil_append, isPrefixList, Bool.and_eq_true,
        beq_iff_eq] at h
      obtain ⟨ha, hb, hc, -⟩ := h
      rw [← ha, ← hb, ← hc]
    · intro h
      rw [h]
      rfl
  · have he : (' ' == e) = false := by
      cases hb : (' ' == e) with
      | false => rfl
      | true =>
        have hse : ' ' = e := eq_of_beq hb
        have := htns e (by simp)
        rw [← hse] at this
        exact absurd this (by decide)
    simp [isPrefixList, he]

theorem containsSub_line_iff (h1 h2 m1 m2 : Char) (tok rest : List Char)
    (hd : (h1.isDigit && h2.isDigit && m1.isDigit && m2.isDigit) = true)
    (htns : ∀ c ∈ tok, c.isWhitespace = false) :
    (containsSub ('[' :: h1 :: h2 :: ':' :: m1 :: m2 :: ']' :: ' ' :: (tok ++ ' ' :: rest))
        [']', ' ', '*', '*', '*', ' '] = true) ↔
      (tok = ['*', '*', '*'] ∨
        containsSub (tok ++ ' ' :: rest) [']', ' ', '*', '*', '*', ' '] = true) := by
  have hd' := hd
  simp only [Bool.and_eq_true] at hd'
  obtain ⟨⟨⟨hd1, hd2⟩, hd3⟩, hd4⟩ := hd'
  have e1 : (']' == h1) = false := beq_eq_false_of_isDigit _ _ (by decide) hd1
  have e2 : (']' == h2) = false := beq_eq_false_of_isDigit _ _ (by decide) hd2
  have e3 : (']' == m1) = false := beq_eq_false_of_isDigit _ _ (by decide) hd3
  have e4 : (']' == m2) = false := beq_eq_false_of_isDigit _ _ (by decide) hd4
  simp only [containsSub, isPrefixList, e1, e2, e3, e4,
    show (']' == '[') = false from rfl, show (']' == ':') = false from rfl,
    show (']' == ']') = true from rfl, show (' ' == ' ') = true from rfl,
    show (']' == ' ') = false from rfl,
    Bool.false_and, Bool.true_and, Bool.false_or, Bool.or_eq_true]
  rw [isPrefixList_star_token tok rest htns]

theorem counted_iff_message (l : String) (d : Date) (hg : GoodLine l) :
    (!(strContains l "] *** ")) = is_message_event l d := by
  obtain ⟨h1, h2, m1, m2, tok, rest, hdata, hd, hh, hm, htne, htns, hstrip, htail, hnl⟩ := hg
  have hl : l = ⟨'[' :: h1 :: h2 :: ':' :: m1 :: m2 :: ']' :: ' ' :: (tok ++ ' ' :: rest)⟩ := by
    cases l
    simp only [string_mk_data] at hdata
    rw [hdata]
  subst hl
  have hpat : ("] *** ".data : List Char) = [']', ' ', '*', '*', '*', ' '] := rfl
  have hiff := containsSub_line_iff h1 h2 m1 m2 tok rest hd htns
  have hparse := parse_line_shape h1 h2 m1 m2 tok rest d hd hh hm htne htns hnl
  by_cases hc : stripAngles tok = "***".data
  · have htok : tok = "***".data := hstrip hc
    have hcont : strContains ⟨'[' :: h1 :: h2 :: ':' :: m1 :: m2 :: ']' :: ' ' ::
        (tok ++ ' ' :: rest)⟩ "] *** " = true := by
      simp only [strContains, string_mk_data, hpat]
      exact hiff.mpr (Or.inl htok)
    rw [hcont]
    simp only [is_message_event, hparse, if_pos hc]
    rfl
  · have htokne : tok ≠ ['*', '*', '*'] := fun hEq => hc (by rw [hEq]; rfl)
    have hcont : strContains ⟨'[' :: h1 :: h2 :: ':' :: m1 :: m2 :: ']' :: ' ' ::
        (tok ++ ' ' :: rest)⟩ "] *** " = false := by
      simp only [strContains, string_mk_data, hpat]
      cases hb : containsSub ('[' :: h1 :: h2 :: ':' :: m1 :: m2 :: ']' :: ' ' ::
          (tok ++ ' ' :: rest)) [']', ' ', '*', '*', '*', ' '] with
      | false => rfl
      | true =>
        rcases hiff.mp hb with hx | hx
        · exact absurd hx htokne
        · rw [← hpat] at hx
          rw [hx] at htail
          exact absurd htail (by simp)
    rw [hcont]
    simp only [is_message_event, hparse, if_neg hc]
    rfl

theorem foldl_count_aux (lines : List String) :
    ∀ acc : Nat,
      lines.foldl (fun count line => if !(strContains line "] *** ") then count + 1 else count)
          acc =
        acc + (lines.filter (fun l => !(strContains l "] *** "))).length := by
  induction lines with
  | nil => intro acc; simp
  | cons a l ih =>
    intro acc
    cases hs : strContains a "] *** " with
    | false =>
      have hpred : (!(strContains a "] *** ")) = true := by rw [hs]; rfl
      rw [List.foldl_cons, if_pos hpred, ih (acc + 1), List.filter_cons, if_pos hpred,
        List.length_cons]
      omega
    | true =>
      have hpred : ¬ ((!(strContains a "] *** ")) = true) := by rw [hs]; simp
      rw [List.foldl_cons, if_neg hpred, ih acc, List.filter_cons, if_neg hpred]

/-- C3 (amended): on files whose every line has the well-formed shape —
grammar-conforming with a valid time, status tokens written bare (`***`, not
a wrapped form such as `<***>` that also strips to `***`), and no stray
occurrence of `"] *** "` in the token-and-text portion — the counting pass
returns exactly the number of lines the full parser classifies as `Message`.
Outside this restriction the two classifications can disagree (see the
counterexample). -/
theorem c3_count_refines_message_lines (lines : List String) (d : Date)
    (h : ∀ l ∈ lines, GoodLine l) :
    count_message_lines lines d = parsed_message_count lines d := by
  simp only [count_message_lines, parsed_message_count]
  rw [foldl_count_aux lines 0, Nat.zero_add]
  exact congrArg List.length
    (List.filter_congr (fun x hx => counted_iff_message x d (h x hx)))

theorem c3_witness :
    count_message_lines ["[14:32] <alice> hello", "[00:00] *** alice joined"] ⟨2024, 1, 2⟩ =
      parsed_message_count ["[14:32] <alice> hello", "[00:00] *** alice joined"]
        ⟨2024, 1, 2⟩ := by
  apply c3_count_refines_message_lines
  intro l hl
  simp only [List.mem_cons, List.not_mem_nil, or_false] at hl
  rcases hl with rfl | rfl
  · exact ⟨'1', '4', '3', '2', "<alice>".data, "hello".data, by decide, by decide, by decide,
      by decide, by decide, by decide, by decide, by decide, by decide⟩
  · exact ⟨'0', '0', '0', '0', "***".data, "alice joined".data, by decide, by decide, by decide,
      by decide, by decide, by decide, by decide, by decide, by decide⟩

/-- C3 counterexample: the line `"[12:34] <***> hi"` lacks the substring
`"] *** "`, so the counting pass counts it, yet the full parser strips the
angle brackets and classifies it as a `Status` line, not a `Message`. -/
theorem c3_counterexample :
    count_message_lines ["[12:34] <***> hi"] ⟨2024, 1, 2⟩ ≠
      parsed_message_count ["[12:34] <***> hi"] ⟨2024, 1, 2⟩ := by decide

theorem process_output_line_wf (line : String) (h : wf_output_line line = true) :
    process_output_line line = .ok (some (mk_hit line)) := by
  simp only [wf_output_line] at h
  simp only [process_output_line, mk_hit]
  rcases hs : splitn3Colon line.data with _ | ⟨a, _ | ⟨b, _ | ⟨c, _ | ⟨e, t⟩⟩⟩⟩
  · rw [hs] at h; simp at h
  · rw [hs] at h; simp at h
  · rw [hs] at h; simp at h
  · rw [hs] at h
    simp only at h
    obtain ⟨n, hn⟩ := Option.isSome_iff_exists.mp h
    simp [hn]
  · rw [hs] at h; simp at h

theorem process_output_line_not3 (line : String)
    (h : (splitn3Colon line.data).length ≠ 3) : process_output_line line = .ok none := by
  simp only [process_output_line]
  rcases hs : splitn3Colon line.data with _ | ⟨a, _ | ⟨b, _ | ⟨c, _ | ⟨e, t⟩⟩⟩⟩
  · rfl
  · rfl
  · rfl
  · rw [hs] at h
    exact absurd rfl h
  · rfl

theorem search_go_nocap (l : List String) :
    ∀ (count : Nat) (acc : List SearchResultEntry),
      (∀ x ∈ l, wf_output_line x = true) → count + l.length ≤ 10000 →
      search_results_go l count acc = .ok (acc.reverse ++ l.map mk_hit) := by
  induction l with
  | nil => intro count acc _ _; simp [search_results_go]
  | cons a l ih =>
    intro count acc hwf hlen
    simp only [List.length_cons] at hlen
    have hc : (count == 10000) = false := by
      have : count ≠ 10000 := by omega
      simp [this]
    simp only [search_results_go, hc, Bool.false_eq_true, if_false]
    rw [process_output_line_wf a (hwf a (by simp))]
    refine Eq.trans
      (ih (count + 1) (mk_hit a :: acc) (fun x hx => hwf x (by simp [hx])) (by omega)) ?_
    simp

theorem search_go_cap (l : List String) :
    ∀ (count : Nat) (acc : List SearchResultEntry),
      (∀ x ∈ l.take (10000 - count), wf_output_line x = true) →
      count ≤ 10000 → 10000 - count < l.length →
      search_results_go l count acc =
        .ok (acc.reverse ++ (l.take (10000 - count)).map mk_hit ++
          [max_search_results_exceeded]) := by
  induction l with
  | nil => intro count acc _ _ hlen; simp at hlen
  | cons a l ih =>
    intro count acc hwf hcle hlen
    by_cases hc : count = 10000
    · subst hc
      simp [search_results_go, Nat.sub_self]
    · have hlt : count < 10000 := lt_of_le_of_ne hcle hc
      have hcb : (count == 10000) = false := by simp [hc]
      have hsub : 10000 - count = (10000 - (count + 1)) + 1 := by omega
      have hwa : wf_output_line a = true := by
        refine hwf a ?_
        rw [hsub, List.take_succ_cons]
        exact List.mem_cons_self a _
      simp only [search_results_go, hcb, Bool.false_eq_true, if_false]
      rw [process_output_line_wf a hwa]
      refine Eq.trans
        (ih (count + 1) (mk_hit a :: acc)
          (fun x hx => hwf x
            (by rw [hsub, List.take_succ_cons]; exact List.mem_cons_of_mem _ hx))
          (by omega)
          (by simp only [List.length_cons] at hlen; omega)) ?_
      rw [hsub, List.take_succ_cons]
      simp

theorem search_go_count_irrel (l : List String) :
    ∀ (c1 c2 : Nat) (acc : List SearchResultEntry),
      c1 + l.length ≤ 10000 → c2 + l.length ≤ 10000 →
      search_results_go l c1 acc = search_results_go l c2 acc := by
  induction l with
  | nil => intro c1 c2 acc _ _; rfl
  | cons a l ih =>
    intro c1 c2 acc h1 h2
    simp only [List.length_cons] at h1 h2
    have hb1 : (c1 == 10000) = false := by
      have : c1 ≠ 10000 := by omega
      simp [this]
    have hb2 : (c2 == 10000) = false := by
      have : c2 ≠ 10000 := by omega
      simp [this]
    simp only [search_results_go, hb1, hb2, Bool.false_eq_true, if_false]
    cases hp : process_output_line a with
    | error e => rfl
    | ok o =>
      cases o with
      | none => exact ih (c1 + 1) (c2 + 1) acc (by omega) (by omega)
      | some entry => exact ih (c1 + 1) (c2 + 1) (entry :: acc) (by omega) (by omega)

theorem search_go_skip (bad : String) (hbad : (splitn3Colon bad.data).length ≠ 3)
    (post : List String) :
    ∀ (pre : List String) (count : Nat) (acc : List SearchResultEntry),
      count + (pre ++ bad :: post).length ≤ 10000 →
      search_results_go (pre ++ bad :: post) count acc =
        search_results_go (pre ++ post) count acc := by
  intro pre
  induction pre with
  | nil =>
    intro count acc hlen
    simp only [List.nil_append, List.length_cons] at hlen ⊢
    have hb : (count == 10000) = false := by
      have : count ≠ 10000 := by omega
      simp [this]
    simp only [search_results_go, hb, Bool.false_eq_true, if_false]
    rw [process_output_line_not3 bad hbad]
    exact search_go_count_irrel post (count + 1) count acc (by omega) (by omega)
  | cons p pre ih =>
    intro count acc hlen
    simp only [List.cons_append, List.length_cons, List.length_append] at hlen ⊢
    have hb : (count == 10000) = false := by
      have : count ≠ 10000 := by omega
      simp [this]
    simp only [search_results_go, hb, Bool.false_eq_true, if_false]
    cases hp : process_output_line p with
    | error e => rfl
    | ok o =>
      cases o with
      | none =>
        refine ih (count + 1) acc ?_
        simp only [List.length_append, List.length_cons]
        omega
      | some entry =>
        refine ih (count + 1) (entry :: acc) ?_
        simp only [List.length_append, List.length_cons]
        omega

/-- C7: when every output line of the external tool is a well-formed match
line, a search whose output exceeds 10000 lines returns exactly the hits of
the first 10000 lines followed by one sentinel entry (empty `date_slug`,
`line_number` 0, the fixed "too many results" message); output of at most
10000 lines yields the hits alone with no sentinel appended; and no output
line past the 10000th is ever parsed — two over-limit outputs agreeing on
their first 10000 lines produce identical results. -/
theorem c7_search_result_cap (lines lines2 : List String)
    (hwf : ∀ l ∈ lines, wf_output_line l = true) :
    (10000 < lines.length →
      search_results lines =
        .ok ((lines.take 10000).map mk_hit ++ [max_search_results_exceeded])) ∧
    (lines.length ≤ 10000 → search_results lines = .ok (lines.map mk_hit)) ∧
    (lines.take 10000 = lines2.take 10000 → 10000 < lines.length → 10000 < lines2.length →
      search_results lines = search_results lines2) := by
  refine ⟨?_, ?_, ?_⟩
  · intro hlen
    have h := search_go_cap lines 0 []
      (fun x hx => hwf x (List.take_subset _ _ (by simpa using hx)))
      (by omega) (by simpa using hlen)
    simpa [search_results] using h
  · intro hlen
    have h := search_go_nocap lines 0 [] hwf (by simpa using hlen)
    simpa [search_results] using h
  · intro htake hl1 hl2
    have e1 := search_go_cap lines 0 []
      (fun x hx => hwf x (List.take_subset _ _ (by simpa using hx)))
      (by omega) (by simpa using hl1)
    have e2 := search_go_cap lines2 0 []
      (fun x hx => by
        rw [Nat.sub_zero] at hx
        rw [← htake] at hx
        exact hwf x (List.take_subset _ _ hx))
      (by omega) (by simpa using hl2)
    simp only [search_results]
    rw [e1, e2, Nat.sub_zero, htake]

theorem c7_witness :
    10000 < (List.replicate 10001 "a.log:1:x").length ∧
    search_results (List.replicate 10001 "a.log:1:x") =
      .ok (((List.replicate 10001 "a.log:1:x").take 10000).map mk_hit ++
        [max_search_results_exceeded]) :=
  ⟨by rw [List.length_replicate]; omega,
    (c7_search_result_cap (List.replicate 10001 "a.log:1:x")
      (List.replicate 10001 "a.log:1:x")
      (fun l hl => by rw [List.eq_of_mem_replicate hl]; decide)).1
      (by rw [List.length_replicate]; omega)⟩

theorem process_output_line_not_wf3 (line : String)
    (h3 : (splitn3Colon line.data).length = 3) (hwf : wf_output_line line = false) :
    process_output_line line = .error .intParseError := by
  simp only [wf_output_line] at hwf
  simp only [process_output_line]
  rcases hs : splitn3Colon line.data with _ | ⟨a, _ | ⟨b, _ | ⟨c, _ | ⟨e, t⟩⟩⟩⟩
  · rw [hs] at h3; simp at h3
  · rw [hs] at h3; simp at h3
  · rw [hs] at h3; simp at h3
  · rw [hs] at hwf
    simp only at hwf
    have hnone : parse_u64 (trimChars b) = none := by
      cases hp : parse_u64 (trimChars b) with
      | none => rfl
      | some n => rw [hp] at hwf; simp at hwf
    simp [hnone]
  · rw [hs] at h3; simp at h3

/-- C8 (amended): only an output line of the external tool that does not
split into three `:`-separated fields (fewer than two colons) is silently
discarded — its processing yields neither a hit nor an error, and removing
it from an (uncapped) output changes nothing in the result.  A line that
does split into three fields but whose middle field is not an unsigned
integer — so it does not have the `path:line_number:raw_text` shape
either — is not discarded: its processing makes the whole search call
return an error. -/
theorem c8_malformed_line_discarded (bad nonNum : String) (pre post : List String)
    (hbad : (splitn3Colon bad.data).length ≠ 3)
    (h3 : (splitn3Colon nonNum.data).length = 3)
    (hnn : wf_output_line nonNum = false) :
    (process_output_line bad = .ok none ∧
      ((pre ++ bad :: post).length ≤ 10000 →
        search_results (pre ++ bad :: post) = search_results (pre ++ post))) ∧
    process_output_line nonNum = .error .intParseError := by
  refine ⟨⟨process_output_line_not3 bad hbad, fun hlen => ?_⟩,
    process_output_line_not_wf3 nonNum h3 hnn⟩
  exact search_go_skip bad hbad post pre 0 [] (by simpa using hlen)

theorem c8_witness :
    search_results ["agrep: cannot open"] = search_results ([] : List String) ∧
    process_output_line "a:b:c" = .error .intParseError :=
  ⟨((c8_malformed_line_discarded "agrep: cannot open" "a:b:c" [] []
      (by decide) (by decide) (by decide)).1).2 (by decide),
    (c8_malformed_line_discarded "agrep: cannot open" "a:b:c" [] []
      (by decide) (by decide) (by decide)).2⟩

/-- C8 counterexample: the tool-diagnostic line
`"agrep: foo.log: No such file or directory"` does not have the
`path:line_number:raw_text` shape — its middle field is not a line number —
yet it is not silently discarded: the search call over an output containing
it returns an error, even when every other output line is well-formed. -/
theorem c8_counterexample :
    wf_output_line "agrep: foo.log: No such file or directory" = false ∧
    search_results ["agrep: foo.log: No such file or directory"] =
      .error .intParseError ∧
    search_results ["a.log:1:x", "agrep: foo.log: No such file or directory", "b.log:2:y"] =
      .error .intParseError := by decide

end Irclog
